import Mathlib

/-!
Verification of the Forge project lifecycle service
(`server/services/project_service.py`, with the data model from
`server/models/project.py` and path utilities from `server/utils/paths.py`).

The service is filesystem CRUD: `create_project` materialises the canonical
directory layout and seed files, `list_projects` scans the projects root,
`open_project` touches the `last_opened_at` timestamp, and `get_project`
reads metadata.  We embed the filesystem state shallowly as an optional
association list of root entries (the projects root either does not exist,
or holds named entries, each a directory with its known files or a plain
file).  Wall-clock time (`datetime.utcnow()`) is passed in explicitly as a
`Nat`; each operation receives the current time as an argument, and
monotonicity of the clock is a hypothesis where a claim needs it.

Python string primitives used by the identifier validation
(`str.isalnum`, `str.lower`, `str.replace("-", "")`) are embedded with
their semantics on ASCII text; theorems about identifier validation carry
an explicit ASCII hypothesis where the equivalence relies on it.
-/

namespace Forge

/-- Status enumeration from `models/project.py` (`ProjectStatus`). -/
inductive ProjectStatus
  | active
  | paused
  | archived
  deriving DecidableEq, Repr

/-- String value of a status, as pydantic serialises the `str`-enum. -/
def statusToString : ProjectStatus → String
  | .active => "active"
  | .paused => "paused"
  | .archived => "archived"

/-- Parse a serialised status string back to the enumeration; `none` models
a pydantic validation failure on the `status` field. -/
def parseStatus : String → Option ProjectStatus
  | "active" => some .active
  | "paused" => some .paused
  | "archived" => some .archived
  | _ => none

/-- Embedded constraint record (`ProjectRules` in `models/project.py`). -/
structure ProjectRules where
  allow_cross_project_access : Bool
  llm_edit_scope : String
  max_llm_edit_size : Int
  deriving DecidableEq, Repr

/-- Default rules, from the field defaults of `ProjectRules`. -/
def defaultRules : ProjectRules :=
  { allow_cross_project_access := false
    llm_edit_scope := "markdown_only"
    max_llm_edit_size := 500 }

/-- Validated project metadata (`ProjectMeta` in `models/project.py`).
A value of this type corresponds to a pydantic `ProjectMeta` instance that
passed construction-time validation. -/
structure ProjectMeta where
  id : String
  name : String
  created_at : Nat
  last_opened_at : Option Nat
  description : String
  status : ProjectStatus
  rules : ProjectRules
  deriving DecidableEq, Repr

/-- A chat message (`ChatMessage` in `models/project.py`). -/
structure ChatMessage where
  id : String
  timestamp : Nat
  role : String
  content : String
  deriving DecidableEq, Repr

/-- A conversation log (`Conversation` in `models/project.py`), the content
of `chat/main.json`. -/
structure Conversation where
  conversation_id : String
  created_at : Nat
  messages : List ChatMessage
  deriving DecidableEq, Repr

/-- One character of the allowed identifier class `[a-z0-9-]` from the
pydantic pattern `^[a-z0-9-]+$` on `ProjectMeta.id`. -/
def goodChar (c : Char) : Bool :=
  c.isLower || c.isDigit || c == '-'

/-- The pydantic pattern `^[a-z0-9-]+$` on `ProjectMeta.id`: the string is
non-empty and every character is a lowercase letter, digit, or hyphen. -/
def matchesIdPattern (s : String) : Bool :=
  !s.data.isEmpty && s.data.all goodChar

/-- Pydantic construction of `ProjectMeta(id=.., name=.., description=..,
created_at=..)` as performed by `create_project`: validates the `id`
pattern and the `name` length bounds (`min_length=1, max_length=100`);
`last_opened_at`, `status` and `rules` take their declared defaults.
`none` models a raised `ValidationError`. -/
def mkProjectMeta (id name description : String) (created_at : Nat) :
    Option ProjectMeta :=
  if matchesIdPattern id && decide (1 ≤ name.length) && decide (name.length ≤ 100) then
    some { id := id, name := name, created_at := created_at,
           last_opened_at := none, description := description,
           status := .active, rules := defaultRules }
  else none

/-- Raw content of a metadata file as read back by `yaml.safe_load`:
a well-typed mapping with all `ProjectMeta` fields, the status still a
plain string, awaiting pydantic validation. -/
structure RawMeta where
  id : String
  name : String
  created_at : Nat
  last_opened_at : Option Nat
  description : String
  status : String
  rules : ProjectRules
  deriving DecidableEq, Repr

/-- Serialisation performed by `yaml.dump(meta.model_dump(mode="json"))`:
every field is written out, the status as its string value. -/
def serializeMeta (m : ProjectMeta) : RawMeta :=
  { id := m.id, name := m.name, created_at := m.created_at,
    last_opened_at := m.last_opened_at, description := m.description,
    status := statusToString m.status, rules := m.rules }

/-- Validation performed by `ProjectMeta(**data)` on loaded raw data:
checks the `id` pattern, the `name` length bounds, and that `status` is a
member of the enumeration. `none` models a raised `ValidationError`. -/
def validateRawMeta (r : RawMeta) : Option ProjectMeta :=
  match parseStatus r.status with
  | none => none
  | some st =>
    if matchesIdPattern r.id && decide (1 ≤ r.name.length) && decide (r.name.length ≤ 100) then
      some { id := r.id, name := r.name, created_at := r.created_at,
             last_opened_at := r.last_opened_at, description := r.description,
             status := st, rules := r.rules }
    else none

/-- State of the `meta/project.yaml` file when present: either it fails
`yaml.safe_load` (or is not a well-typed mapping), or it parses to a raw
record. -/
inductive MetaFile
  | malformed
  | parsed (raw : RawMeta)
  deriving DecidableEq, Repr

/-- On-disk state of one project directory under the projects root:
which canonical subdirectories exist, and the content of each of the four
seed files when present (`meta/project.yaml`, `meta/summary.md`,
`chat/main.json`, `docs/index.md`). -/
structure ProjectDir where
  subdirs : List String
  metaFile : Option MetaFile
  summaryFile : Option String
  chatFile : Option Conversation
  indexFile : Option String
  deriving DecidableEq, Repr

/-- An immediate child of the projects root: a project directory, or a
plain file (skipped by `list_projects` via the `is_dir` check). -/
inductive RootEntry
  | dir (d : ProjectDir)
  | file
  deriving DecidableEq, Repr

/-- The filesystem under `PROJECTS_ROOT`: `none` when the projects root
itself does not exist, otherwise the named immediate children. -/
def FS := Option (List (String × RootEntry))

instance : DecidableEq FS := by
  unfold FS
  infer_instance

/-- The empty but existing projects root. -/
def FS.emptyRoot : FS := some []

/-- Look up the first binding of a name in an association list. -/
def lookupAssoc : List (String × RootEntry) → String → Option RootEntry
  | [], _ => none
  | (k, v) :: rest, id => if k = id then some v else lookupAssoc rest id

/-- Replace the first binding of a name, or append a new one. -/
def setAssoc : List (String × RootEntry) → String → RootEntry → List (String × RootEntry)
  | [], id, e => [(id, e)]
  | (k, v) :: rest, id, e =>
    if k = id then (id, e) :: rest else (k, v) :: setAssoc rest id e

/-- Resolve `PROJECTS_ROOT / project_id` (`get_project_path`): the entry at
the project path, if any. -/
def FS.lookup (fs : FS) (project_id : String) : Option RootEntry :=
  match fs with
  | none => none
  | some entries => lookupAssoc entries project_id

/-- Write the entry at the project path, creating the projects root if it
does not exist (`mkdir(parents=True)`). -/
def FS.setEntry (fs : FS) (project_id : String) (e : RootEntry) : FS :=
  match fs with
  | none => some [(project_id, e)]
  | some entries => some (setAssoc entries project_id e)

/-- Existence predicate from `utils/paths.py` (`project_exists`): true iff
the project path exists and is a directory (`Path.is_dir`). -/
def project_exists (fs : FS) (project_id : String) : Bool :=
  match fs.lookup project_id with
  | some (.dir _) => true
  | _ => false

/-- Python `str.isalnum` on a list of characters (ASCII fragment): false on
the empty string, otherwise true iff every character is alphanumeric. -/
def pyIsAlnum (s : List Char) : Bool :=
  !s.isEmpty && s.all Char.isAlphanum

/-- Python `str.replace("-", "")`: drop every hyphen. -/
def stripHyphens (s : List Char) : List Char :=
  s.filter (fun c => c ≠ '-')

/-- Python `str.lower` (ASCII fragment): lowercase each character. -/
def pyLower (s : List Char) : List Char :=
  s.map Char.toLower

/-- The two identifier checks at the top of `create_project`: the id is
truthy (non-empty), the id with hyphens removed satisfies `isalnum`, and
the id equals its lowercase form.  `create_project` raises `ValueError`
(the *InvalidIdentifier* error) exactly when this returns false. -/
def idChecksPass (project_id : String) : Bool :=
  !project_id.data.isEmpty
    && pyIsAlnum (stripHyphens project_id.data)
    && decide (pyLower project_id.data = project_id.data)

/-- Error taxonomy of the lifecycle service.  `invalidId` is the explicit
`ValueError` from the identifier checks (*InvalidIdentifier*),
`alreadyExists` is `ProjectExistsError`, `notFound` is
`ProjectNotFoundError`, `validation` is an unhandled pydantic
`ValidationError`, `fileError` is an unhandled `OSError` from `open()` or
`mkdir` (e.g. a missing file or a file standing where a directory is
needed), and `yamlError` is an unhandled `yaml` parse error. -/
inductive ServiceError
  | invalidId
  | alreadyExists
  | notFound
  | validation
  | fileError
  | yamlError
  deriving DecidableEq, Repr

/-- The six directories `create_project` makes: the `PROJECT_DIRS` loop
(`docs`, `chat`, `meta`, `history`) followed by the two history
subdirectories. -/
def canonicalSubdirs : List String :=
  ["docs", "chat", "meta", "history", "history/docs", "history/meta"]

/-- Placeholder text used in the summary template when the description is
empty (Python `description or "..."`). -/
def intentPlaceholder : String :=
  "[Describe what this project is trying to achieve]"

/-- The `meta/summary.md` template written by `create_project`. -/
def summaryTemplate (description : String) : String :=
  "# Project Summary\n\n## Intent\n"
    ++ (if description = "" then intentPlaceholder else description)
    ++ "\n\n## Current Focus\n[What are you working on right now?]\n\n"
    ++ "## Constraints\n- [List any hard constraints or rules]\n\n"
    ++ "## Open Questions\n- [What decisions are pending?]\n\n"
    ++ "## Last Known Good State\n[What was working last time you touched this?]\n\n"
    ++ "## Notes to Future Me\n[Anything you\x27ll forget but shouldn\x27t]\n"

/-- The `docs/index.md` content written by `create_project`. -/
def indexContent (name description : String) : String :=
  "# " ++ name ++ "\n\n" ++ description ++ "\n"

/-- The pydantic validity of a metadata record: the conditions checked on
construction (`id` pattern, `name` length bounds).  Every `ProjectMeta`
produced by the embedding satisfies this. -/
def metaValid (m : ProjectMeta) : Bool :=
  matchesIdPattern m.id && decide (1 ≤ m.name.length) && decide (m.name.length ≤ 100)

/-- The project directory right after the `mkdir` steps of `create_project`:
all six canonical subdirectories, no files yet. -/
def bareDir : ProjectDir :=
  { subdirs := canonicalSubdirs, metaFile := none,
    summaryFile := none, chatFile := none, indexFile := none }

/-- The project directory after all four seed files of `create_project`
have been written. -/
def seededDir (meta : ProjectMeta) (name description : String) (now : Nat) :
    ProjectDir :=
  { subdirs := canonicalSubdirs,
    metaFile := some (.parsed (serializeMeta meta)),
    summaryFile := some (summaryTemplate description),
    chatFile := some { conversation_id := "main", created_at := now,
                       messages := [] },
    indexFile := some (indexContent name description) }

/-- Embedding of `create_project(project_id, name, description)`.

The Python function, in order: validates the identifier (two `ValueError`
raises), raises `ProjectExistsError` if the project path is a directory,
creates the six canonical subdirectories (`mkdir(parents=True,
exist_ok=True)`), constructs a `ProjectMeta` (pydantic validation of
`name` can raise here, after the directories exist), then writes
`meta/project.yaml`, `meta/summary.md`, `chat/main.json` and
`docs/index.md`, and returns the metadata.  The returned `FS` is the
filesystem after the call, including the partially constructed tree when
the pydantic construction fails.  If the project path is occupied by a
plain file the `is_dir` check passes but the first `mkdir` underneath it
raises an `OSError` with nothing created. -/
def create_project (fs : FS) (now : Nat)
    (project_id name description : String) :
    FS × Except ServiceError ProjectMeta :=
  if ¬ idChecksPass project_id then
    (fs, .error .invalidId)
  else if project_exists fs project_id then
    (fs, .error .alreadyExists)
  else if fs.lookup project_id = some .file then
    (fs, .error .fileError)
  else
    let fs1 := fs.setEntry project_id (.dir bareDir)
    match mkProjectMeta project_id name description now with
    | none => (fs1, .error .validation)
    | some meta =>
      (fs1.setEntry project_id (.dir (seededDir meta name description now)),
        .ok meta)

/-- Sort key used by `list_projects`: `p.last_opened_at or p.created_at`
(a datetime is always truthy, so `or` falls through exactly on `None`). -/
def projectKey (p : ProjectMeta) : Nat :=
  p.last_opened_at.getD p.created_at

/-- The comparison passed to the sort: descending by `projectKey`
(`sorted(..., reverse=True)` with a stable sort). -/
def keyGe (a b : ProjectMeta) : Bool :=
  decide (projectKey b ≤ projectKey a)

/-- Metadata successfully loaded from one root entry during the listing
scan: `none` when the entry is not a directory, lacks `meta/project.yaml`,
fails to parse, or fails validation — all silently skipped. -/
def loadEntry : String × RootEntry → Option ProjectMeta
  | (_, .file) => none
  | (_, .dir d) =>
    match d.metaFile with
    | some (.parsed raw) => validateRawMeta raw
    | _ => none

/-- Embedding of `list_projects()`: empty when the projects root does not
exist; otherwise every immediate child is scanned, non-directories and
children whose metadata is missing, unparseable or invalid are skipped,
and the surviving records are sorted descending by
`last_opened_at or created_at` (stably, as Python `sorted`). -/
def list_projects (fs : FS) : List ProjectMeta :=
  match fs with
  | none => []
  | some entries => (entries.filterMap loadEntry).mergeSort keyGe

/-- Embedding of `open_project(project_id)`: raises `ProjectNotFoundError`
if the project path is not a directory; otherwise reads
`meta/project.yaml` (a missing file is an unhandled `OSError`, a parse
failure an unhandled `yaml` error, a validation failure an unhandled
pydantic error), sets `last_opened_at` to the current time, writes the
full record back to the same file, and returns it. -/
def open_project (fs : FS) (now : Nat) (project_id : String) :
    FS × Except ServiceError ProjectMeta :=
  match fs.lookup project_id with
  | some (.dir d) =>
    match d.metaFile with
    | none => (fs, .error .fileError)
    | some .malformed => (fs, .error .yamlError)
    | some (.parsed raw) =>
      match validateRawMeta raw with
      | none => (fs, .error .validation)
      | some meta =>
        let touched := { meta with last_opened_at := some now }
        (fs.setEntry project_id
            (.dir { d with metaFile := some (.parsed (serializeMeta touched)) }),
          .ok touched)
  | _ => (fs, .error .notFound)

/-- Embedding of `get_project(project_id)`: raises `ProjectNotFoundError`
if the project path is not a directory; otherwise reads and validates
`meta/project.yaml` and returns the record.  The function has full
filesystem access (it returns the filesystem state it leaves behind) but
performs no write. -/
def get_project (fs : FS) (project_id : String) :
    FS × Except ServiceError ProjectMeta :=
  match fs.lookup project_id with
  | some (.dir d) =>
    match d.metaFile with
    | none => (fs, .error .fileError)
    | some .malformed => (fs, .error .yamlError)
    | some (.parsed raw) =>
      match validateRawMeta raw with
      | none => (fs, .error .validation)
      | some meta => (fs, .ok meta)
  | _ => (fs, .error .notFound)

/-- A sample metadata record, used to instantiate theorems on concrete
states. -/
def sampleMeta : ProjectMeta :=
  { id := "demo", name := "Demo", created_at := 0, last_opened_at := none,
    description := "", status := .active, rules := defaultRules }

/-- A sample well-formed project directory holding `sampleMeta`. -/
def sampleDir : ProjectDir :=
  { subdirs := canonicalSubdirs,
    metaFile := some (.parsed (serializeMeta sampleMeta)),
    summaryFile := none, chatFile := none, indexFile := none }

/-- A projects root holding the single well-formed project `demo`. -/
def sampleFS : FS := some [("demo", .dir sampleDir)]

/-- A projects root holding a single directory without a metadata file. -/
def noMetaFS : FS := some [("stub", .dir bareDir)]

/-! ### Character-level facts about the Python string primitives -/

/-- Case analysis on an allowed identifier character. -/
theorem goodChar_cases {c : Char} (h : goodChar c = true) :
    c.isLower = true ∨ c.isDigit = true ∨ c = '-' := by
  unfold goodChar at h
  by_cases h1 : c.isLower = true
  · exact Or.inl h1
  by_cases h2 : c.isDigit = true
  · exact Or.inr (Or.inl h2)
  refine Or.inr (Or.inr ?_)
  rw [Bool.not_eq_true] at h1 h2
  rw [h1, h2] at h
  simpa using h

/-- An allowed identifier character is unchanged by `str.lower`. -/
theorem goodChar_toLower {c : Char} (h : goodChar c = true) : c.toLower = c := by
  rcases goodChar_cases h with h | h | h
  · unfold Char.isLower at h
    simp at h
    have h5 : (97 : UInt32).toNat ≤ c.toNat := h.1
    have e : (97 : UInt32).toNat = 97 := rfl
    rw [e] at h5
    unfold Char.toLower
    have hn : ¬(c.toNat ≥ 65 ∧ c.toNat ≤ 90) := by omega
    simp [hn]
  · unfold Char.isDigit at h
    simp at h
    have h5 : c.toNat ≤ (57 : UInt32).toNat := h.2
    have e : (57 : UInt32).toNat = 57 := rfl
    rw [e] at h5
    unfold Char.toLower
    have hn : ¬(c.toNat ≥ 65 ∧ c.toNat ≤ 90) := by omega
    simp [hn]
  · subst h
    decide

/-- Every allowed identifier character is ASCII. -/
theorem goodChar_ascii {c : Char} (h : goodChar c = true) : c.toNat < 128 := by
  rcases goodChar_cases h with h | h | h
  · unfold Char.isLower at h
    simp at h
    have h5 : c.toNat ≤ (122 : UInt32).toNat := h.2
    have e : (122 : UInt32).toNat = 122 := rfl
    rw [e] at h5
    omega
  · unfold Char.isDigit at h
    simp at h
    have h5 : c.toNat ≤ (57 : UInt32).toNat := h.2
    have e : (57 : UInt32).toNat = 57 := rfl
    rw [e] at h5
    omega
  · subst h
    decide

/-- An allowed identifier character other than the hyphen is alphanumeric. -/
theorem goodChar_isAlphanum {c : Char} (h : goodChar c = true) (hne : ¬ c = '-') :
    c.isAlphanum = true := by
  rcases goodChar_cases h with h | h | h
  · simp [Char.isAlphanum, Char.isAlpha, h]
  · simp [Char.isAlphanum, h]
  · exact absurd h hne

/-- On ASCII characters, being alphanumeric and fixed by `str.lower` is the
same as being a lowercase letter or a digit. -/
theorem asciiCharFact (c : Char) (h : c.toNat < 128) :
    (c.isAlphanum && (c.toLower == c)) = (c.isLower || c.isDigit) := by
  have h2 : ∀ n : Nat, n < 128 →
      ((Char.ofNat n).isAlphanum && ((Char.ofNat n).toLower == Char.ofNat n))
        = ((Char.ofNat n).isLower || (Char.ofNat n).isDigit) := by decide
  have h3 := h2 c.toNat h
  rwa [Char.ofNat_toNat] at h3

/-- An ASCII character that is alphanumeric and fixed by `str.lower` is an
allowed identifier character. -/
theorem goodChar_of_ascii {c : Char} (hascii : c.toNat < 128)
    (halnum : c.isAlphanum = true) (hlow : c.toLower = c) : goodChar c = true := by
  have hfact := asciiCharFact c hascii
  rw [halnum, hlow] at hfact
  simp only [beq_self_eq_true, Bool.and_self] at hfact
  unfold goodChar
  rw [← hfact]
  simp

/-- Mapping `str.lower` over a list of characters it fixes is the identity. -/
theorem map_toLower_eq_self_iff {l : List Char} :
    l.map Char.toLower = l ↔ ∀ c ∈ l, c.toLower = c := by
  induction l with
  | nil => simp
  | cons a t ih =>
    simp only [List.map_cons, List.cons.injEq, List.mem_cons]
    constructor
    · rintro ⟨ha, ht⟩ c (rfl | hc)
      · exact ha
      · exact ih.mp ht c hc
    · intro h
      exact ⟨h a (Or.inl rfl), ih.mpr fun c hc => h c (Or.inr hc)⟩

/-! ### The identifier checks of `create_project`, characterised -/

/-- A string of allowed characters with at least one non-hyphen passes the
identifier checks of `create_project`. -/
theorem idChecksPass_of_pattern (id : String)
    (hall : ∀ c ∈ id.data, goodChar c = true)
    (hex : ∃ c ∈ id.data, ¬ c = '-') :
    idChecksPass id = true := by
  obtain ⟨c0, hc0, hc0ne⟩ := hex
  have hmem : c0 ∈ id.data.filter (fun c => c ≠ '-') :=
    List.mem_filter.mpr ⟨hc0, by simp [hc0ne]⟩
  unfold idChecksPass pyIsAlnum stripHyphens pyLower
  simp only [Bool.and_eq_true, Bool.not_eq_true', List.isEmpty_eq_false,
    List.all_eq_true, decide_eq_true_eq]
  refine ⟨⟨?_, ?_, ?_⟩, ?_⟩
  · intro h
    rw [h] at hc0
    exact absurd hc0 (List.not_mem_nil c0)
  · intro h
    rw [h] at hmem
    exact absurd hmem (List.not_mem_nil c0)
  · intro c hc
    obtain ⟨hcl, hcne⟩ := List.mem_filter.mp hc
    exact goodChar_isAlphanum (hall c hcl) (by simpa using hcne)
  · exact map_toLower_eq_self_iff.mpr fun c hc => goodChar_toLower (hall c hc)

/-- Conversely, over ASCII input, passing the identifier checks forces every
character into the allowed class with at least one non-hyphen present. -/
theorem pattern_of_idChecksPass (id : String)
    (hascii : ∀ c ∈ id.data, c.toNat < 128)
    (h : idChecksPass id = true) :
    id.data ≠ [] ∧ (∀ c ∈ id.data, goodChar c = true) ∧ ∃ c ∈ id.data, ¬ c = '-' := by
  unfold idChecksPass pyIsAlnum stripHyphens pyLower at h
  simp only [Bool.and_eq_true, Bool.not_eq_true', List.isEmpty_eq_false,
    List.all_eq_true, decide_eq_true_eq] at h
  obtain ⟨⟨hne, hfne, halnum⟩, hlow⟩ := h
  have hlow2 := map_toLower_eq_self_iff.mp hlow
  refine ⟨hne, ?_, ?_⟩
  · intro c hc
    by_cases hhy : c = '-'
    · subst hhy
      decide
    · have hcf : c ∈ id.data.filter (fun c => c ≠ '-') :=
        List.mem_filter.mpr ⟨hc, by simp [hhy]⟩
      exact goodChar_of_ascii (hascii c hc) (halnum c hcf) (hlow2 c hc)
  · obtain ⟨c0, hc0⟩ := List.exists_mem_of_ne_nil _ hfne
    obtain ⟨hc0l, hc0ne⟩ := List.mem_filter.mp hc0
    exact ⟨c0, hc0l, by simpa using hc0ne⟩

/-! ### Serialisation round trips -/

/-- Serialising a status and parsing it back is the identity. -/
theorem parseStatus_statusToString (st : ProjectStatus) :
    parseStatus (statusToString st) = some st := by
  cases st <;> rfl

/-- A status string that parses is reproduced by serialising the result. -/
theorem statusToString_parseStatus {s : String} {st : ProjectStatus}
    (h : parseStatus s = some st) : statusToString st = s := by
  unfold parseStatus at h
  split at h
  · cases h; rfl
  · cases h; rfl
  · cases h; rfl
  · cases h

/-- Inversion of a successful pydantic validation of raw metadata: the
resulting record reproduces every raw field (the status via its string
value) and satisfies the validity conditions. -/
theorem validateRawMeta_inv {raw : RawMeta} {m : ProjectMeta}
    (h : validateRawMeta raw = some m) :
    m.id = raw.id ∧ m.name = raw.name ∧ m.created_at = raw.created_at ∧
    m.last_opened_at = raw.last_opened_at ∧ m.description = raw.description ∧
    statusToString m.status = raw.status ∧ m.rules = raw.rules ∧
    metaValid m = true := by
  unfold validateRawMeta at h
  cases hp : parseStatus raw.status with
  | none => rw [hp] at h; cases h
  | some st =>
    rw [hp] at h
    simp only [] at h
    by_cases hc : (matchesIdPattern raw.id && decide (1 ≤ raw.name.length)
        && decide (raw.name.length ≤ 100)) = true
    · rw [if_pos hc] at h
      cases h
      exact ⟨rfl, rfl, rfl, rfl, rfl, statusToString_parseStatus hp, rfl, hc⟩
    · rw [if_neg hc] at h
      cases h

/-- A valid record survives the serialise-then-validate round trip. -/
theorem validate_serialize {m : ProjectMeta} (h : metaValid m = true) :
    validateRawMeta (serializeMeta m) = some m := by
  unfold metaValid at h
  simp [validateRawMeta, serializeMeta, parseStatus_statusToString, h]

/-- Validation ignores `last_opened_at`: changing that raw field changes
only that field of the validated record. -/
theorem validateRawMeta_touch {raw : RawMeta} {m : ProjectMeta} (o : Option Nat)
    (h : validateRawMeta raw = some m) :
    validateRawMeta { raw with last_opened_at := o }
      = some { m with last_opened_at := o } := by
  unfold validateRawMeta at h
  cases hp : parseStatus raw.status with
  | none => rw [hp] at h; cases h
  | some st =>
    rw [hp] at h
    simp only [] at h
    by_cases hc : (matchesIdPattern raw.id && decide (1 ≤ raw.name.length)
        && decide (raw.name.length ≤ 100)) = true
    · rw [if_pos hc] at h
      cases h
      simp only [validateRawMeta]
      rw [show ({ raw with last_opened_at := o } : RawMeta).status = raw.status from rfl,
        hp]
      simp only []
      rw [if_pos hc]
    · rw [if_neg hc] at h
      cases h

/-- Inversion of a successful pydantic construction in `create_project`. -/
theorem mkProjectMeta_inv {id name description : String} {t : Nat}
    {m : ProjectMeta} (h : mkProjectMeta id name description t = some m) :
    m = { id := id, name := name, created_at := t, last_opened_at := none,
          description := description, status := .active,
          rules := defaultRules } ∧ metaValid m = true := by
  unfold mkProjectMeta at h
  split at h
  next hc =>
    cases h
    exact ⟨rfl, hc⟩
  next => cases h

/-- Pydantic construction succeeds exactly on a valid id pattern and name
length. -/
theorem mkProjectMeta_eq_some {id name description : String} {t : Nat}
    (hid : matchesIdPattern id = true)
    (h1 : 1 ≤ name.length) (h100 : name.length ≤ 100) :
    mkProjectMeta id name description t =
      some { id := id, name := name, created_at := t, last_opened_at := none,
             description := description, status := .active,
             rules := defaultRules } := by
  unfold mkProjectMeta
  rw [if_pos (by simp [hid, h1, h100])]

/-! ### Filesystem lemmas -/

/-- Looking up the name just written finds the written entry. -/
theorem lookupAssoc_setAssoc_self (l : List (String × RootEntry))
    (id : String) (e : RootEntry) :
    lookupAssoc (setAssoc l id e) id = some e := by
  induction l with
  | nil => simp [setAssoc, lookupAssoc]
  | cons kv rest ih =>
    obtain ⟨k, v⟩ := kv
    by_cases hk : k = id
    · simp [setAssoc, hk, lookupAssoc]
    · simp [setAssoc, hk, lookupAssoc, ih]

/-- Writing the same name twice keeps only the second write. -/
theorem setAssoc_setAssoc (l : List (String × RootEntry))
    (id : String) (e1 e2 : RootEntry) :
    setAssoc (setAssoc l id e1) id e2 = setAssoc l id e2 := by
  induction l with
  | nil => simp [setAssoc]
  | cons kv rest ih =>
    obtain ⟨k, v⟩ := kv
    by_cases hk : k = id
    · simp [setAssoc, hk]
    · simp [setAssoc, hk, ih]

/-- Looking up the project path just written finds the written entry. -/
theorem FS.lookup_setEntry_self (fs : FS) (id : String) (e : RootEntry) :
    (fs.setEntry id e).lookup id = some e := by
  cases fs with
  | none => simp [FS.setEntry, FS.lookup, lookupAssoc]
  | some entries => simp [FS.setEntry, FS.lookup, lookupAssoc_setAssoc_self]

/-- Writing the same project path twice keeps only the second write. -/
theorem FS.setEntry_setEntry (fs : FS) (id : String) (e1 e2 : RootEntry) :
    (fs.setEntry id e1).setEntry id e2 = fs.setEntry id e2 := by
  cases fs with
  | none => simp [FS.setEntry, setAssoc]
  | some entries => simp [FS.setEntry, setAssoc_setAssoc]

/-! ### Behaviour of the lifecycle operations -/

/-- When the identifier checks fail, `create_project` raises the
*InvalidIdentifier* `ValueError` with the filesystem untouched. -/
theorem create_project_invalid {fs : FS} {now : Nat}
    {id name description : String} (h : idChecksPass id = false) :
    create_project fs now id name description = (fs, .error .invalidId) := by
  unfold create_project
  rw [if_pos (by simp [h])]

/-- Full case analysis of `create_project` once the identifier checks
pass: the call either stops on an existing directory, stops on a plain
file in the way, leaves a bare directory tree behind on a pydantic
validation failure, or writes the seeded directory and succeeds. -/
theorem create_project_cases (fs : FS) (now : Nat)
    (id name description : String) (hc : idChecksPass id = true) :
    (project_exists fs id = true ∧
      create_project fs now id name description = (fs, .error .alreadyExists)) ∨
    (project_exists fs id = false ∧ fs.lookup id = some .file ∧
      create_project fs now id name description = (fs, .error .fileError)) ∨
    (project_exists fs id = false ∧ ¬ fs.lookup id = some .file ∧
      ((mkProjectMeta id name description now = none ∧
        create_project fs now id name description =
          (fs.setEntry id (.dir bareDir), .error .validation)) ∨
       (∃ m, mkProjectMeta id name description now = some m ∧
        create_project fs now id name description =
          (fs.setEntry id (.dir (seededDir m name description now)),
            .ok m)))) := by
  unfold create_project
  rw [if_neg (by simp [hc])]
  by_cases he : project_exists fs id = true
  · rw [if_pos he]
    exact Or.inl ⟨he, rfl⟩
  · rw [Bool.not_eq_true] at he
    rw [if_neg (by simp [he])]
    by_cases hf : fs.lookup id = some .file
    · rw [if_pos hf]
      exact Or.inr (Or.inl ⟨he, hf, rfl⟩)
    · rw [if_neg hf]
      cases hm : mkProjectMeta id name description now with
      | none =>
        exact Or.inr (Or.inr ⟨he, hf, Or.inl ⟨rfl, rfl⟩⟩)
      | some m =>
        refine Or.inr (Or.inr ⟨he, hf, Or.inr ⟨m, rfl, ?_⟩⟩)
        simp only [FS.setEntry_setEntry]

/-- When the identifier checks pass, `create_project` never raises the
*InvalidIdentifier* error. -/
theorem create_project_not_invalid {fs : FS} {now : Nat}
    {id name description : String} (hc : idChecksPass id = true) :
    (create_project fs now id name description).2
      ≠ Except.error ServiceError.invalidId := by
  rcases create_project_cases fs now id name description hc with
    ⟨_, he⟩ | ⟨_, _, he⟩ | ⟨_, _, ⟨_, he⟩ | ⟨m, _, he⟩⟩ <;> rw [he] <;> simp

/-- A successful `create_project` implies the identifier checks passed and
leaves the fully seeded project directory at the project path. -/
theorem create_project_ok_inv {fs fs1 : FS} {now : Nat}
    {id name description : String} {m : ProjectMeta}
    (h : create_project fs now id name description = (fs1, .ok m)) :
    idChecksPass id = true ∧
    fs1.lookup id = some (.dir (seededDir m name description now)) := by
  by_cases hc : idChecksPass id = true
  · refine ⟨hc, ?_⟩
    rcases create_project_cases fs now id name description hc with
      ⟨_, he⟩ | ⟨_, _, he⟩ | ⟨_, _, ⟨_, he⟩ | ⟨m', hm', he⟩⟩ <;> rw [he] at h
    · exact absurd (congrArg Prod.snd h) (by simp)
    · exact absurd (congrArg Prod.snd h) (by simp)
    · exact absurd (congrArg Prod.snd h) (by simp)
    · have h1 := congrArg Prod.fst h
      have h2 := congrArg Prod.snd h
      simp only [] at h1 h2
      cases h2
      rw [← h1]
      exact FS.lookup_setEntry_self fs id _
  · rw [Bool.not_eq_true] at hc
    rw [create_project_invalid hc] at h
    exact absurd (congrArg Prod.snd h) (by simp)

/-- `open_project` on a path that is not a directory raises
`ProjectNotFoundError` and leaves the filesystem unchanged. -/
theorem open_project_notFound {fs : FS} {t : Nat} {id : String}
    (h : project_exists fs id = false) :
    open_project fs t id = (fs, .error .notFound) := by
  unfold project_exists at h
  unfold open_project
  cases hl : fs.lookup id with
  | none => rfl
  | some e =>
    cases e with
    | dir d => rw [hl] at h; simp at h
    | file => rfl

/-- `get_project` on a path that is not a directory raises
`ProjectNotFoundError` and leaves the filesystem unchanged. -/
theorem get_project_notFound {fs : FS} {id : String}
    (h : project_exists fs id = false) :
    get_project fs id = (fs, .error .notFound) := by
  unfold project_exists at h
  unfold get_project
  cases hl : fs.lookup id with
  | none => rfl
  | some e =>
    cases e with
    | dir d => rw [hl] at h; simp at h
    | file => rfl

/-- `open_project` on a directory without `meta/project.yaml` fails with
the unhandled file error, not `ProjectNotFoundError`. -/
theorem open_project_noMetaFile {fs : FS} {t : Nat} {id : String}
    {d : ProjectDir} (hd : fs.lookup id = some (.dir d))
    (hm : d.metaFile = none) :
    open_project fs t id = (fs, .error .fileError) := by
  unfold open_project
  rw [hd]
  simp only []
  rw [hm]

/-- `get_project` on a directory without `meta/project.yaml` fails with
the unhandled file error, not `ProjectNotFoundError`. -/
theorem get_project_noMetaFile {fs : FS} {id : String}
    {d : ProjectDir} (hd : fs.lookup id = some (.dir d))
    (hm : d.metaFile = none) :
    get_project fs id = (fs, .error .fileError) := by
  unfold get_project
  rw [hd]
  simp only []
  rw [hm]

/-- On a well-formed project, `open_project` touches `last_opened_at`,
writes the record back, and returns it. -/
theorem open_project_eq {fs : FS} {t : Nat} {id : String} {d : ProjectDir}
    {raw : RawMeta} {meta : ProjectMeta}
    (hd : fs.lookup id = some (.dir d))
    (hm : d.metaFile = some (.parsed raw))
    (hv : validateRawMeta raw = some meta) :
    open_project fs t id =
      (fs.setEntry id
          (.dir { d with
            metaFile := some (.parsed (serializeMeta { meta with last_opened_at := some t })) }),
        .ok { meta with last_opened_at := some t }) := by
  unfold open_project
  rw [hd]
  simp only []
  rw [hm]
  simp only []
  rw [hv]

/-- On a well-formed project, `get_project` returns the validated record
and leaves the filesystem exactly as it was. -/
theorem get_project_eq {fs : FS} {id : String} {d : ProjectDir}
    {raw : RawMeta} {meta : ProjectMeta}
    (hd : fs.lookup id = some (.dir d))
    (hm : d.metaFile = some (.parsed raw))
    (hv : validateRawMeta raw = some meta) :
    get_project fs id = (fs, .ok meta) := by
  unfold get_project
  rw [hd]
  simp only []
  rw [hm]
  simp only []
  rw [hv]

/-- `get_project` never changes the filesystem, whatever the state of the
project. -/
theorem get_project_fst (fs : FS) (id : String) :
    (get_project fs id).1 = fs := by
  unfold get_project
  cases fs.lookup id with
  | none => rfl
  | some e =>
    cases e with
    | file => rfl
    | dir d =>
      simp only []
      cases d.metaFile with
      | none => rfl
      | some mf =>
        cases mf with
        | malformed => rfl
        | parsed raw =>
          simp only []
          cases validateRawMeta raw with
          | none => rfl
          | some m => rfl

/-- A non-empty string of allowed characters matches the id pattern. -/
theorem matchesIdPattern_of {id : String}
    (hall : ∀ c ∈ id.data, goodChar c = true) (hne : id.data ≠ []) :
    matchesIdPattern id = true := by
  unfold matchesIdPattern
  simp only [Bool.and_eq_true, Bool.not_eq_true', List.isEmpty_eq_false,
    List.all_eq_true]
  exact ⟨hne, hall⟩

/-! ### The sort used by `list_projects` -/

/-- The descending comparison is transitive. -/
theorem keyGe_trans (a b c : ProjectMeta)
    (h1 : keyGe a b = true) (h2 : keyGe b c = true) : keyGe a c = true := by
  unfold keyGe at h1 h2 ⊢
  simp only [decide_eq_true_eq] at h1 h2 ⊢
  exact le_trans h2 h1

/-- The descending comparison is total. -/
theorem keyGe_total (a b : ProjectMeta) : (keyGe a b || keyGe b a) = true := by
  unfold keyGe
  rcases Nat.le_total (projectKey a) (projectKey b) with h | h <;> simp [h]

/-! ### Claim theorems -/

/-- Claim C1, counterexample: the identifier consisting of a single hyphen
is non-empty and consists only of allowed characters (lowercase letters,
digits, hyphens), yet `create_project` fails with the *InvalidIdentifier*
`ValueError` — refuting the claim that this error is never raised for such
identifiers (`"-".replace("-", "")` is empty and `"".isalnum()` is false). -/
theorem create_invalidId_counterexample :
    (("-" : String).data ≠ [] ∧ ∀ c ∈ ("-" : String).data, goodChar c = true) ∧
    (create_project FS.emptyRoot 0 "-" "Name" "").2
      = Except.error ServiceError.invalidId := by
  exact ⟨by decide, rfl⟩

/-- Claim C1 (amended): for ASCII identifiers, `create_project` fails with
the *InvalidIdentifier* error exactly when the identifier is empty,
contains a character other than a lowercase letter, digit, or hyphen, or
consists entirely of hyphens. -/
theorem create_invalidId_iff (fs : FS) (now : Nat)
    (id name description : String)
    (hascii : ∀ c ∈ id.data, c.toNat < 128) :
    (create_project fs now id name description).2
        = Except.error ServiceError.invalidId
      ↔ (id.data = [] ∨ (∃ c ∈ id.data, goodChar c = false) ∨
          ∀ c ∈ id.data, c = '-') := by
  constructor
  · intro h
    by_contra hne
    push_neg at hne
    obtain ⟨h1, h2, h3⟩ := hne
    have hc : idChecksPass id = true :=
      idChecksPass_of_pattern id
        (fun c hc => by
          have hg := h2 c hc
          simpa using hg)
        h3
    exact create_project_not_invalid hc h
  · intro h
    have hc : idChecksPass id = false := by
      by_contra hcc
      rw [Bool.not_eq_false] at hcc
      obtain ⟨hne, hall, hex⟩ := pattern_of_idChecksPass id hascii hcc
      rcases h with h | ⟨c, hc1, hc2⟩ | h
      · exact hne h
      · rw [hall c hc1] at hc2; cases hc2
      · obtain ⟨c, hc1, hc2⟩ := hex
        exact hc2 (h c hc1)
    rw [create_project_invalid hc]

/-- Witness for the amended C1 at a concrete input: an identifier with a
space fails with the *InvalidIdentifier* error. -/
theorem create_invalidId_iff_witness :
    (create_project FS.emptyRoot 0 "bad id" "Name" "").2
      = Except.error ServiceError.invalidId :=
  (create_invalidId_iff FS.emptyRoot 0 "bad id" "Name" "" (by decide)).mpr
    (Or.inr (Or.inl ⟨' ', by decide, by decide⟩))

/-- Claim C2, counterexample: the pattern-matching, never-created
identifier consisting of a single hyphen makes `create` fail outright
(and the subsequent `get` fail with `NotFound`), and an empty name makes
`create` raise a validation error even on a perfectly valid identifier —
refuting the claim that create-then-get succeeds for every identifier
matching the allowed pattern. -/
theorem create_get_counterexample :
    (matchesIdPattern "-" = true ∧ FS.emptyRoot.lookup "-" = none ∧
      (create_project FS.emptyRoot 0 "-" "Name" "Desc").2
        = Except.error ServiceError.invalidId ∧
      (get_project (create_project FS.emptyRoot 0 "-" "Name" "Desc").1 "-").2
        = Except.error ServiceError.notFound) ∧
    (matchesIdPattern "proj" = true ∧
      (create_project FS.emptyRoot 0 "proj" "" "").2
        = Except.error ServiceError.validation) := by
  exact ⟨⟨by decide, rfl, rfl, rfl⟩, ⟨by decide, rfl⟩⟩

/-- Claim C2 (amended): for every identifier of allowed characters with at
least one non-hyphen, every name of length 1 to 100, and an unoccupied
project path, `create` followed by `get` succeeds and returns a record
whose `id`, `name`, `description` equal the inputs, whose status is
active, and whose `last_opened_at` is absent. -/
theorem create_get_roundtrip (fs : FS) (now : Nat)
    (id name description : String)
    (hall : ∀ c ∈ id.data, goodChar c = true)
    (hex : ∃ c ∈ id.data, ¬ c = '-')
    (hn1 : 1 ≤ name.length) (hn100 : name.length ≤ 100)
    (hfree : fs.lookup id = none) :
    ∃ fs1 meta,
      create_project fs now id name description = (fs1, .ok meta) ∧
      get_project fs1 id = (fs1, .ok meta) ∧
      meta.id = id ∧ meta.name = name ∧ meta.description = description ∧
      meta.status = ProjectStatus.active ∧ meta.last_opened_at = none := by
  have hc : idChecksPass id = true := idChecksPass_of_pattern id hall hex
  have hne : id.data ≠ [] := by
    obtain ⟨c0, hc0, _⟩ := hex
    intro h
    rw [h] at hc0
    exact absurd hc0 (List.not_mem_nil c0)
  have hpat : matchesIdPattern id = true := matchesIdPattern_of hall hne
  have hexists : project_exists fs id = false := by
    unfold project_exists
    rw [hfree]
  have hfile : ¬ fs.lookup id = some .file := by
    rw [hfree]
    simp
  have hmk : mkProjectMeta id name description now =
      some { id := id, name := name, created_at := now, last_opened_at := none,
             description := description, status := .active,
             rules := defaultRules } :=
    mkProjectMeta_eq_some hpat hn1 hn100
  rcases create_project_cases fs now id name description hc with
    ⟨he, _⟩ | ⟨_, hf, _⟩ | ⟨_, _, ⟨hm, _⟩ | ⟨m, hm, he⟩⟩
  · rw [hexists] at he; cases he
  · exact absurd hf hfile
  · rw [hmk] at hm; cases hm
  · obtain ⟨hmval, hvalid⟩ := mkProjectMeta_inv hm
    refine ⟨_, m, he,
      get_project_eq (FS.lookup_setEntry_self fs id _) rfl
        (validate_serialize hvalid), ?_, ?_, ?_, ?_, ?_⟩ <;> rw [hmval]

/-- Witness for the amended C2 at a concrete input. -/
theorem create_get_roundtrip_witness :
    ∃ fs1 meta,
      create_project FS.emptyRoot 0 "my-proj" "My Project" "d" = (fs1, .ok meta) ∧
      get_project fs1 "my-proj" = (fs1, .ok meta) ∧
      meta.id = "my-proj" ∧ meta.name = "My Project" ∧ meta.description = "d" ∧
      meta.status = ProjectStatus.active ∧ meta.last_opened_at = none :=
  create_get_roundtrip FS.emptyRoot 0 "my-proj" "My Project" "d"
    (by decide) ⟨'m', by decide, by decide⟩ (by decide) (by decide) rfl

/-- Claim C3: on an existing well-formed project, `open` sets
`last_opened_at` to the current time, re-serialises the metadata with
every other stored field (`id`, `name`, `created_at`, `description`,
`status`, `rules`) unchanged, and returns the updated record; a second
`open` at a later-or-equal clock yields a later-or-equal
`last_opened_at`. -/
theorem open_touches_only_timestamp (fs : FS) (t t' : Nat) (id : String)
    (d : ProjectDir) (raw : RawMeta) (meta : ProjectMeta)
    (hd : fs.lookup id = some (.dir d))
    (hm : d.metaFile = some (.parsed raw))
    (hv : validateRawMeta raw = some meta)
    (ht : t ≤ t') :
    open_project fs t id =
      (fs.setEntry id
          (.dir { d with
            metaFile := some (.parsed { raw with last_opened_at := some t }) }),
        .ok { meta with last_opened_at := some t }) ∧
    (open_project
        (fs.setEntry id
          (.dir { d with
            metaFile := some (.parsed { raw with last_opened_at := some t }) }))
        t' id).2 = .ok { meta with last_opened_at := some t' } ∧
    t ≤ t' := by
  obtain ⟨hid, hname, hcre, hlast, hdesc, hstat, hrules, hvalid⟩ :=
    validateRawMeta_inv hv
  have hser : serializeMeta { meta with last_opened_at := some t }
      = { raw with last_opened_at := some t } := by
    unfold serializeMeta
    cases raw
    simp_all
  refine ⟨?_, ?_, ht⟩
  · rw [open_project_eq hd hm hv, hser]
  · rw [open_project_eq (FS.lookup_setEntry_self fs id _) rfl
      (validateRawMeta_touch (some t) hv)]

/-- Witness for C3 at a concrete state: opening the sample project at
time 5 touches the timestamp, and opening again at time 9 advances it. -/
theorem open_touches_only_timestamp_witness :
    (open_project sampleFS 5 "demo").2
        = .ok { sampleMeta with last_opened_at := some 5 } ∧
    5 ≤ 9 :=
  ⟨congrArg Prod.snd
      (open_touches_only_timestamp sampleFS 5 9 "demo" sampleDir
        (serializeMeta sampleMeta) sampleMeta rfl rfl (by decide)
        (by decide)).1,
    by decide⟩

/-- Claim C4: a second `create` with an identifier whose project directory
already exists fails with `ProjectExistsError`, and the filesystem —
including every file written by the first call — is left unchanged. -/
theorem second_create_alreadyExists (fs fs1 : FS) (t t' : Nat)
    (id name description name2 description2 : String) (m : ProjectMeta)
    (h : create_project fs t id name description = (fs1, .ok m)) :
    create_project fs1 t' id name2 description2
      = (fs1, .error .alreadyExists) := by
  obtain ⟨hc, hl⟩ := create_project_ok_inv h
  have he : project_exists fs1 id = true := by
    unfold project_exists
    rw [hl]
  rcases create_project_cases fs1 t' id name2 description2 hc with
    ⟨_, he2⟩ | ⟨hf, _, _⟩ | ⟨hf, _, _⟩
  · exact he2
  · rw [he] at hf; cases hf
  · rw [he] at hf; cases hf

/-- Witness for C4 at a concrete input. -/
theorem second_create_alreadyExists_witness :
    create_project (create_project FS.emptyRoot 0 "demo2" "Name" "").1
        1 "demo2" "Other" "x"
      = ((create_project FS.emptyRoot 0 "demo2" "Name" "").1,
          Except.error ServiceError.alreadyExists) :=
  second_create_alreadyExists FS.emptyRoot
    (create_project FS.emptyRoot 0 "demo2" "Name" "").1 0 1
    "demo2" "Name" "" "Other" "x"
    { id := "demo2", name := "Name", created_at := 0, last_opened_at := none,
      description := "", status := .active, rules := defaultRules }
    rfl

/-- Claim C7: `open` and `get` on an identifier whose project directory
does not exist both fail with `ProjectNotFoundError`. -/
theorem open_get_notFound (fs : FS) (t : Nat) (id : String)
    (h : project_exists fs id = false) :
    open_project fs t id = (fs, Except.error ServiceError.notFound) ∧
    get_project fs id = (fs, Except.error ServiceError.notFound) :=
  ⟨open_project_notFound h, get_project_notFound h⟩

/-- Witness for C7 at a concrete input. -/
theorem open_get_notFound_witness :
    open_project FS.emptyRoot 3 "ghost"
        = (FS.emptyRoot, Except.error ServiceError.notFound) ∧
    get_project FS.emptyRoot "ghost"
        = (FS.emptyRoot, Except.error ServiceError.notFound) :=
  open_get_notFound FS.emptyRoot 3 "ghost" rfl

/-- Claim C8: `get` never mutates the filesystem — the state after the
call is identical to the state before, for every project — and on an
existing well-formed project it returns exactly the stored metadata. -/
theorem get_no_mutation :
    (∀ (fs : FS) (id : String), (get_project fs id).1 = fs) ∧
    (∀ (fs : FS) (id : String) (d : ProjectDir) (raw : RawMeta)
        (meta : ProjectMeta),
      fs.lookup id = some (.dir d) →
      d.metaFile = some (.parsed raw) →
      validateRawMeta raw = some meta →
      get_project fs id = (fs, .ok meta)) :=
  ⟨get_project_fst, fun _ _ _ _ _ hd hm hv => get_project_eq hd hm hv⟩

/-- Witness for C8 at a concrete state. -/
theorem get_no_mutation_witness :
    get_project sampleFS "demo" = (sampleFS, Except.ok sampleMeta) :=
  get_no_mutation.2 sampleFS "demo" sampleDir (serializeMeta sampleMeta)
    sampleMeta rfl rfl (by decide)

/-- Claim C9: when the project directory exists but holds no
`meta/project.yaml`, `open` and `get` do not fail with
`ProjectNotFoundError` — the existence check passes and the metadata read
fails with the unhandled file error instead. -/
theorem noMetaFile_not_notFound (fs : FS) (t : Nat) (id : String)
    (d : ProjectDir)
    (hd : fs.lookup id = some (.dir d)) (hm : d.metaFile = none) :
    open_project fs t id = (fs, Except.error ServiceError.fileError) ∧
    get_project fs id = (fs, Except.error ServiceError.fileError) ∧
    ServiceError.fileError ≠ ServiceError.notFound :=
  ⟨open_project_noMetaFile hd hm, get_project_noMetaFile hd hm, by decide⟩

/-- Witness for C9 at a concrete state. -/
theorem noMetaFile_not_notFound_witness :
    open_project noMetaFS 2 "stub"
        = (noMetaFS, Except.error ServiceError.fileError) ∧
    get_project noMetaFS "stub"
        = (noMetaFS, Except.error ServiceError.fileError) ∧
    ServiceError.fileError ≠ ServiceError.notFound :=
  noMetaFile_not_notFound noMetaFS 2 "stub" bareDir rfl rfl

/-- Claim C10: with the valid identifier `proj` and the empty name
(violating the length-1-to-100 constraint), `create` raises the pydantic
validation error only after the full directory tree (docs, chat, meta,
history, history/docs, history/meta) exists, leaving a partial project
with no metadata file, so a subsequent `create` with the same identifier
fails with `ProjectExistsError`. -/
theorem partial_create_leaves_dirs :
    (create_project FS.emptyRoot 0 "proj" "" "").2
      = Except.error ServiceError.validation ∧
    (create_project FS.emptyRoot 0 "proj" "" "").1.lookup "proj"
      = some (.dir bareDir) ∧
    bareDir.subdirs
      = ["docs", "chat", "meta", "history", "history/docs", "history/meta"] ∧
    bareDir.metaFile = none ∧
    (create_project (create_project FS.emptyRoot 0 "proj" "" "").1
        1 "proj" "Valid Name" "").2
      = Except.error ServiceError.alreadyExists :=
  ⟨rfl, rfl, rfl, rfl, rfl⟩

/-- Claim C5: `list` returns exactly the records that load and validate
successfully (a permutation of the successful loads), in descending order
of `last_opened_at`-when-present-else-`created_at`, and returns the empty
sequence when the projects root does not exist. -/
theorem list_projects_spec :
    list_projects (none : FS) = [] ∧
    (∀ entries : List (String × RootEntry),
      (list_projects (some entries)).Perm (entries.filterMap loadEntry)) ∧
    (∀ fs : FS,
      (list_projects fs).Pairwise (fun a b => projectKey b ≤ projectKey a)) := by
  refine ⟨rfl, fun entries => List.mergeSort_perm _ _, fun fs => ?_⟩
  cases fs with
  | none => exact List.Pairwise.nil
  | some entries =>
    have hs := List.sorted_mergeSort keyGe_trans keyGe_total
      (entries.filterMap loadEntry)
    unfold list_projects
    refine hs.imp fun hab => ?_
    unfold keyGe at hab
    simpa using hab

/-- Claim C6: during `list`, an immediate subdirectory of the projects
root lacking a metadata file, or whose metadata fails to parse or
validate, is excluded from the result without affecting the listing of
the remaining projects (and no error is raised: `list_projects` is
total). -/
theorem list_skips_bad_entry (l1 l2 : List (String × RootEntry))
    (nm : String) (d : ProjectDir)
    (hbad : d.metaFile = none ∨ d.metaFile = some .malformed ∨
      ∃ raw, d.metaFile = some (.parsed raw) ∧ validateRawMeta raw = none) :
    list_projects (some (l1 ++ (nm, .dir d) :: l2))
      = list_projects (some (l1 ++ l2)) := by
  have hload : loadEntry (nm, .dir d) = none := by
    unfold loadEntry
    simp only []
    rcases hbad with h | h | ⟨raw, h, hv⟩
    · rw [h]
    · rw [h]
    · rw [h]
      exact hv
  simp [list_projects, List.filterMap_append, List.filterMap_cons, hload]

/-- Witness for C6 at a concrete state: a bare directory without metadata
is skipped and the rest of the listing is unaffected. -/
theorem list_skips_bad_entry_witness :
    list_projects (some [("stub", .dir bareDir), ("demo", .dir sampleDir)])
      = list_projects (some [("demo", .dir sampleDir)]) :=
  list_skips_bad_entry [] [("demo", .dir sampleDir)] "stub" bareDir
    (Or.inl rfl)

end Forge
